import Mathlib

/-!
# Verification of the careamics-napari coordination layer

Shallow embedding of the two source files of the `careamics-napari` plugin:

* `src/careamics_napari/careamics_utils/training_worker.py` — the
  `train_worker` generator and the `_train` thread body that feed training
  status updates from a background thread to the GUI through a bounded queue;
* `src/careamics_napari/widgets/axes_widget.py` — the `AxesWidget` input
  validation widget and its `LettersValidator`.

External collaborators (the CAREamics library, Qt, napari) are kept abstract:
layer data is an arbitrary type `α` with decidable equality, CAREamist
instances an arbitrary type `γ`, and the axes validation helpers
`are_axes_valid` / `filter_dimensions` (which live in a module outside the
embedded sources) are universally quantified function parameters.
-/

namespace CareamicsNapari

/-! ## Data model of the signals module, as used by `training_worker.py` -/

/-- Tags of `TrainUpdate` messages.  Only `STATE`, `EXCEPTION` and `CAREAMIST`
are used by the embedded code; `otherT` keeps the enumeration open for the
remaining members of the Python enum. -/
inductive TrainUpdateType where
  | state
  | exception
  | careamist
  | otherT (n : Nat)
deriving DecidableEq, Repr

/-- Training states; only `DONE` is inspected by the embedded code. -/
inductive TrainingState where
  | done
  | otherS (n : Nat)
deriving DecidableEq, Repr

/-- Python exception values: `_train` constructs `ValueError`s, a `None`
attribute access raises `AttributeError`, and `careamist.train` may raise
anything (`otherE`). -/
inductive PyExc where
  | valueError (msg : String)
  | attributeError (msg : String)
  | otherE (n : Nat)
deriving DecidableEq, Repr

/-- The payload of a `TrainUpdate`: a training state, an exception, or a
CAREamist instance (abstract type `γ`). -/
inductive UpdateValue (γ : Type) where
  | ofState (s : TrainingState)
  | ofExc (e : PyExc)
  | ofCareamist (c : γ)
deriving DecidableEq

/-- A `TrainUpdate(type, value)` message as placed on the update queue. -/
structure TrainUpdate (γ : Type) where
  type : TrainUpdateType
  value : UpdateValue γ
deriving DecidableEq

/-- A napari layer, reduced to the only attribute the code reads: `.data`. -/
structure Layer (α : Type) where
  data : α
deriving DecidableEq

/-- The CAREamics `SupportedAlgorithm` enum; the code only tests whether the
algorithm differs from `N2V`. -/
inductive SupportedAlgorithm where
  | n2v
  | care
  | n2n
  | otherA (n : Nat)
deriving DecidableEq, Repr

/-- The fields of `TrainConfigurationSignal` read by `_train`.  Layer fields
hold `None` or a napari layer; path fields hold strings (empty = unset). -/
structure TrainConfigurationSignal (α : Type) where
  algorithm : SupportedAlgorithm
  load_from_disk : Bool
  path_train : String
  path_val : String
  path_train_target : String
  path_val_target : String
  layer_train : Option (Layer α)
  layer_val : Option (Layer α)
  layer_train_target : Option (Layer α)
  layer_val_target : Option (Layer α)

/-! ## The axes widget (`axes_widget.py`) -/

/-- The `Highlight` enum of `axes_widget.py`. -/
inductive Highlight where
  | valid
  | unrecognized
  | not_accepted
deriving DecidableEq, Repr

/-- The Qt `QValidator.State` values returned by `LettersValidator.validate`. -/
inductive QValidatorState where
  | acceptable
  | intermediate
  | invalid
deriving DecidableEq, Repr

/-- `LettersValidator.validate(value, pos)`: accept when the last typed
character is in the options, report `Intermediate` on the empty string, and
fall through to `Invalid` otherwise.  The options set is the `options`
argument of the constructor (`REF_AXES` at the call site). -/
def LettersValidator.validate (options : List Char) (value : String)
    (pos : Nat) : QValidatorState × String × Nat :=
  if value.length > 0 then
    if value.back ∈ options then (.acceptable, value, pos)
    else (.invalid, value, pos)
  else
    if value = "" then (.intermediate, value, pos)
    else (.invalid, value, pos)

/-- The mutable state of an `AxesWidget` that `_validate_text`,
`_set_text_color`, `get_axes` and `is_valid` interact with. -/
structure AxesWidget where
  n_axes : Nat
  is_3D : Bool
  text : String
  is_text_valid : Bool
  styleSheet : String

namespace AxesWidget

/-- `AxesWidget.get_axes`: the current text of the text field. -/
def get_axes (w : AxesWidget) : String := w.text

/-- `AxesWidget._set_text_color`: records `is_text_valid` and sets the style
sheet according to the highlight. -/
def _set_text_color (w : AxesWidget) (highlight : Highlight) : AxesWidget :=
  { w with
    is_text_valid := highlight = Highlight.valid
    styleSheet :=
      match highlight with
      | .unrecognized => "color: red;"
      | .not_accepted => "color: orange;"
      | .valid => "color: white;" }

/-- `AxesWidget._validate_text`, parametrised by the external helpers
`are_axes_valid` and `filter_dimensions` from `careamics_napari.utils`. -/
def _validate_text (are_axes_valid : String → Bool)
    (filter_dimensions : Nat → Bool → List String) (w : AxesWidget) :
    AxesWidget :=
  let axes := w.get_axes
  if are_axes_valid axes then
    if axes.toUpper ∈ filter_dimensions w.n_axes w.is_3D then
      w._set_text_color Highlight.valid
    else
      w._set_text_color Highlight.not_accepted
  else
    w._set_text_color Highlight.unrecognized

/-- `AxesWidget.is_valid`: re-validates and returns the resulting flag,
together with the widget state after the call. -/
def is_valid (are_axes_valid : String → Bool)
    (filter_dimensions : Nat → Bool → List String) (w : AxesWidget) :
    Bool × AxesWidget :=
  let w' := w._validate_text are_axes_valid filter_dimensions
  (w'.is_text_valid, w')

end AxesWidget

/-- Python list indexing `l[i]` for `String` lists: non-negative indices from
the front, negative indices from the back, `none` on an out-of-range error. -/
def pyIndex (l : List String) (i : Int) : Option String :=
  if 0 ≤ i then l.get? i.toNat
  else if (-i).toNat ≤ l.length then l.get? (l.length - (-i).toNat)
  else none

/-- `AxesWidget.get_default_text`: `defaults[n_axes - 2]` over the fixed
five-element table selected by `is_3D`. -/
def get_default_text (n_axes : Nat) (is_3D : Bool) : Option String :=
  let defaults :=
    if is_3D then ["YX", "ZYX", "SZYX", "STZYX", "STCZYX"]
    else ["YX", "SYX", "STYX", "STCYX", "STC?YX"]
  pyIndex defaults ((n_axes : Int) - 2)

/-- The defaults table of `get_default_text` for a given dimensionality. -/
def defaultsTable (is_3D : Bool) : List String :=
  if is_3D then ["YX", "ZYX", "SZYX", "STZYX", "STCZYX"]
  else ["YX", "SYX", "STYX", "STCYX", "STC?YX"]

/-! ## The training worker (`training_worker.py`) -/

/-- Data handed to `careamist.train`: either a path string (`load_from_disk`
branch) or in-memory layer data (`.data` of a napari layer). -/
inductive DataSource (α : Type) where
  | path (p : String)
  | arr (d : α)
deriving DecidableEq

/-- The keyword arguments of the `careamist.train` call in `_train`. -/
structure TrainArgs (α : Type) where
  train_source : DataSource α
  val_source : Option (DataSource α)
  train_target : Option (DataSource α)
  val_target : Option (DataSource α)
deriving DecidableEq

/-- How a Python call ends: a normal return, or an uncaught exception
propagating out. -/
inductive PyResult where
  | returned
  | raised (e : PyExc)
deriving DecidableEq, Repr

/-- One complete run of `_train`: the updates it put on the queue (in order),
the arguments of the `careamist.train` call when it was reached, and whether
`_train` returned or died on an uncaught exception. -/
structure TrainRun (γ α : Type) where
  puts : List (TrainUpdate γ)
  trainCall : Option (TrainArgs α)
  result : PyResult
deriving DecidableEq

/-- The data-formatting phase of `_train` for the `load_from_disk` branch
(lines 94–129).  An error carries the `ValueError` pushed on the queue and
how the branch then ends. -/
def format_disk {α : Type} [DecidableEq α] (cs : TrainConfigurationSignal α) :
    Except (PyExc × PyResult) (TrainArgs α) :=
  if cs.path_train = "" then
    .error (.valueError "Training data path is empty.", .returned)
  else
    let train_data : DataSource α := .path cs.path_train
    let val_data : Option (DataSource α) :=
      if cs.path_val ≠ "" then some (.path cs.path_val) else none
    let val_data := if val_data = some train_data then none else val_data
    if cs.algorithm ≠ SupportedAlgorithm.n2v then
      if cs.path_train_target = "" then
        .error (.valueError "Training target data path is empty.", .returned)
      else
        let train_target := some (DataSource.path (α := α) cs.path_train_target)
        let val_target :=
          if val_data ≠ none then
            if cs.path_val_target ≠ "" then
              some (DataSource.path (α := α) cs.path_val_target)
            else none
          else none
        .ok ⟨train_data, val_data, train_target, val_target⟩
    else
      .ok ⟨train_data, val_data, none, none⟩

/-- The data-formatting phase of `_train` for the in-memory-layer branch
(lines 130–166).  When `layer_train` is `None` the code pushes the
`ValueError` but, missing a `return`, goes on to read `.data` of `None`,
which raises an `AttributeError` that propagates out of `_train`. -/
def format_layers {α : Type} [DecidableEq α]
    (cs : TrainConfigurationSignal α) :
    Except (PyExc × PyResult) (TrainArgs α) :=
  match cs.layer_train with
  | none =>
      .error (.valueError "Training data path is empty.",
        .raised (.attributeError "NoneType object has no attribute data"))
  | some lt =>
      let train_data : DataSource α := .arr lt.data
      let val_data : Option (DataSource α) :=
        cs.layer_val.map fun l => .arr l.data
      let val_data := if val_data = some train_data then none else val_data
      if cs.algorithm ≠ SupportedAlgorithm.n2v then
        match cs.layer_train_target with
        | none =>
            .error
              (.valueError "Training target data path is empty.", .returned)
        | some ltt =>
            let train_target := some (DataSource.arr ltt.data)
            let val_target :=
              if val_data ≠ none then
                cs.layer_val_target.map fun l => DataSource.arr l.data
              else none
            .ok ⟨train_data, val_data, train_target, val_target⟩
      else
        .ok ⟨train_data, val_data, none, none⟩

/-- The whole data-formatting phase of `_train` (lines 90–166). -/
def _train_format {α : Type} [DecidableEq α]
    (cs : TrainConfigurationSignal α) :
    Except (PyExc × PyResult) (TrainArgs α) :=
  if cs.load_from_disk then format_disk cs else format_layers cs

/-- Assembles a `TrainRun` from the formatting outcome and the behaviour of
`careamist.train` (lines 168–201): on an early exit the pushed `ValueError`
follows the `CAREAMIST` registration update; otherwise `train` is called,
emitting `during` updates through its callback, a raised exception is caught
and forwarded as an `EXCEPTION` update, and a final `STATE DONE` update is
pushed in every case. -/
def _train_assemble {γ α : Type} (head : List (TrainUpdate γ))
    (fd : Except (PyExc × PyResult) (TrainArgs α))
    (trainOutcome : Except PyExc Unit) (during : List (TrainUpdate γ)) :
    TrainRun γ α :=
  match fd with
  | .error (e, res) =>
      ⟨head ++ [⟨.exception, .ofExc e⟩], none, res⟩
  | .ok args =>
      match trainOutcome with
      | .ok _ =>
          ⟨head ++ during ++ [⟨.state, .ofState .done⟩], some args, .returned⟩
      | .error e =>
          ⟨head ++ during ++
              [⟨.exception, .ofExc e⟩, ⟨.state, .ofState .done⟩],
            some args, .returned⟩

/-- `_train(config_signal, update_queue, careamist)`: registers the CAREamist
on the queue, formats the data, and runs `careamist.train`.  `car` is the
CAREamist in play, `trainOutcome` the behaviour of the black-box
`careamist.train` call, and `during` the updates its callback emits before it
returns or raises. -/
def _train {γ α : Type} [DecidableEq α] (cs : TrainConfigurationSignal α)
    (trainOutcome : Except PyExc Unit) (during : List (TrainUpdate γ))
    (car : γ) : TrainRun γ α :=
  _train_assemble [⟨.careamist, .ofCareamist car⟩] (_train_format cs)
    trainOutcome during

/-- The loop-exit test of the `train_worker` generator (lines 50–54): stop
after an update of type `STATE` with value `TrainingState.DONE`, or of type
`EXCEPTION`. -/
def isTerminal {γ : Type} [DecidableEq γ] (u : TrainUpdate γ) : Bool :=
  decide ((u.type = TrainUpdateType.state ∧
      u.value = UpdateValue.ofState TrainingState.done) ∨
    u.type = TrainUpdateType.exception)

/-- The consumer loop of `train_worker` (lines 45–54), applied to the
sequence of updates placed on the queue in FIFO order: dequeue and yield one
update at a time, breaking right after yielding the first terminal one. -/
def train_worker_loop {γ : Type} [DecidableEq γ] :
    List (TrainUpdate γ) → List (TrainUpdate γ)
  | [] => []
  | u :: rest =>
      u :: (if isTerminal u then [] else train_worker_loop rest)

/-- The capacity of the update queue, `Queue(10)` (line 32). -/
def update_queue_capacity : Nat := 10

/-- One step of the bounded queue of `train_worker`: `put` appends an update
and is only enabled while the queue is below capacity (a full queue blocks
the producer), `get` removes the oldest update. -/
inductive QueueStep {γ : Type} :
    List (TrainUpdate γ) → List (TrainUpdate γ) → Prop where
  | put (u : TrainUpdate γ) (q : List (TrainUpdate γ))
      (h : q.length < update_queue_capacity) : QueueStep q (q ++ [u])
  | get (u : TrainUpdate γ) (q : List (TrainUpdate γ)) : QueueStep (u :: q) q

/-- Queue contents reachable from the freshly created, empty queue. -/
inductive QueueReachable {γ : Type} : List (TrainUpdate γ) → Prop where
  | init : QueueReachable []
  | step {q q' : List (TrainUpdate γ)} :
      QueueReachable q → QueueStep q q' → QueueReachable q'

/-! ## The CAREamist configuration update (`_train`, lines 70–88) -/

/-- The training sub-configuration of a CAREamics `Configuration`:
`num_epochs` plus all remaining fields, abstracted as `δ`. -/
structure TrainingConfig (δ : Type) where
  num_epochs : Nat
  restT : δ
deriving DecidableEq

/-- A CAREamics `Configuration`: its `training_config` plus all remaining
fields, abstracted as `β`. -/
structure Configuration (β δ : Type) where
  training_config : TrainingConfig δ
  restC : β
deriving DecidableEq

/-- The single configuration mutation `_train` performs on an existing
CAREamist (line 78):
`careamist.cfg.training_config.num_epochs = config.training_config.num_epochs`. -/
def update_num_epochs {β δ : Type} (cfg : Configuration β δ) (n : Nat) :
    Configuration β δ :=
  { cfg with training_config := { cfg.training_config with num_epochs := n } }

/-- A concrete configuration signal: training data loaded from disk, N2V
algorithm, no validation data selected. -/
def exampleSignal : TrainConfigurationSignal Unit where
  algorithm := .n2v
  load_from_disk := true
  path_train := "train"
  path_val := ""
  path_train_target := ""
  path_val_target := ""
  layer_train := none
  layer_val := none
  layer_train_target := none
  layer_val_target := none

/-- A concrete configuration signal selecting in-memory layers but with no
training layer chosen. -/
def noLayerSignal : TrainConfigurationSignal Unit where
  algorithm := .n2v
  load_from_disk := false
  path_train := ""
  path_val := ""
  path_train_target := ""
  path_val_target := ""
  layer_train := none
  layer_val := none
  layer_train_target := none
  layer_val_target := none

/-! ## Theorems -/

/-- C7: after `_validate_text`, `is_text_valid` holds iff `are_axes_valid`
accepts the text and the uppercased text lies in
`filter_dimensions(n_axes, is_3D)`; the text colour is red exactly when
`are_axes_valid` fails, orange exactly when it holds but the uppercased text
is not in `filter_dimensions(n_axes, is_3D)`, white otherwise; and
`is_valid` returns the resulting `is_text_valid`. -/
theorem claim_C7_validate_text (av : String → Bool)
    (fd : Nat → Bool → List String) (w : AxesWidget) :
    ((w._validate_text av fd).is_text_valid = true ↔
      av w.text = true ∧ w.text.toUpper ∈ fd w.n_axes w.is_3D) ∧
    ((w._validate_text av fd).styleSheet = "color: red;" ↔
      av w.text = false) ∧
    ((w._validate_text av fd).styleSheet = "color: orange;" ↔
      av w.text = true ∧ w.text.toUpper ∉ fd w.n_axes w.is_3D) ∧
    ((w._validate_text av fd).styleSheet = "color: white;" ↔
      av w.text = true ∧ w.text.toUpper ∈ fd w.n_axes w.is_3D) ∧
    (w.is_valid av fd).1 = (w._validate_text av fd).is_text_valid := by
  by_cases h1 : av w.text <;>
    by_cases h2 : w.text.toUpper ∈ fd w.n_axes w.is_3D <;>
      simp [AxesWidget._validate_text, AxesWidget._set_text_color,
        AxesWidget.get_axes, AxesWidget.is_valid, h1, h2]

/-- A string has length zero exactly when it is empty. -/
lemma string_length_eq_zero_iff (s : String) : s.length = 0 ↔ s = "" := by
  obtain ⟨data⟩ := s
  cases data with
  | nil => constructor <;> intro <;> rfl
  | cons c cs =>
      constructor <;> intro hh
      · simp [String.length] at hh
      · have h2 : (String.mk (c :: cs)).data = ("" : String).data :=
          congrArg _ hh
        simp at h2

/-- C8: `LettersValidator.validate` returns `Acceptable` iff the value is
non-empty with its last character among the options, `Intermediate` iff the
value is empty, `Invalid` otherwise, and always echoes back the input value
and position. -/
theorem claim_C8_letters_validator (options : List Char) (value : String)
    (pos : Nat) :
    ((LettersValidator.validate options value pos).1 = .acceptable ↔
      value ≠ "" ∧ value.back ∈ options) ∧
    ((LettersValidator.validate options value pos).1 = .intermediate ↔
      value = "") ∧
    ((LettersValidator.validate options value pos).1 = .invalid ↔
      value ≠ "" ∧ value.back ∉ options) ∧
    (LettersValidator.validate options value pos).2.1 = value ∧
    (LettersValidator.validate options value pos).2.2 = pos := by
  by_cases h : value = ""
  · simp [LettersValidator.validate, h]
  · have hlen : value.length > 0 :=
      Nat.pos_of_ne_zero fun hz => h ((string_length_eq_zero_iff value).mp hz)
    by_cases hb : value.back ∈ options <;>
      simp [LettersValidator.validate, hlen, h, hb]

/-- C9: updating an existing CAREamist's configuration in `_train` sets
`training_config.num_epochs` to the new configuration's value and leaves
every other field of the configuration unchanged. -/
theorem claim_C9_update_num_epochs {β δ : Type}
    (cfg newCfg : Configuration β δ) :
    (update_num_epochs cfg newCfg.training_config.num_epochs).training_config.num_epochs
        = newCfg.training_config.num_epochs ∧
    (update_num_epochs cfg newCfg.training_config.num_epochs).training_config.restT
        = cfg.training_config.restT ∧
    (update_num_epochs cfg newCfg.training_config.num_epochs).restC
        = cfg.restC := by
  simp [update_num_epochs]

/-- C10: for every `n_axes` accepted by the constructor's assertion
(`0 < n_axes ≤ 6`) and every `is_3D`, `get_default_text` returns an element
of the five-element defaults table without an out-of-range error, and for
`2 ≤ n_axes ≤ 6` the default has exactly `n_axes` characters. -/
theorem claim_C10_get_default_text (n : Nat) (is3D : Bool) (h1 : 0 < n)
    (h2 : n ≤ 6) :
    ∃ s, get_default_text n is3D = some s ∧ s ∈ defaultsTable is3D ∧
      (2 ≤ n → s.length = n) := by
  interval_cases n <;> cases is3D <;> exact ⟨_, rfl, by decide, by decide⟩

/-- Witness for C10 at `n_axes = 3`, `is_3D = false`. -/
theorem claim_C10_witness :
    (0 < 3 ∧ 3 ≤ 6) ∧
    ∃ s, get_default_text 3 false = some s ∧ s ∈ defaultsTable false ∧
      (2 ≤ 3 → s.length = 3) :=
  ⟨by decide, claim_C10_get_default_text 3 false (by decide) (by decide)⟩

/-- The updates yielded by the `train_worker` loop form a prefix of the
dequeued sequence: updates come out one at a time in FIFO order. -/
lemma train_worker_loop_fifo_order {γ : Type} [DecidableEq γ]
    (qs : List (TrainUpdate γ)) : train_worker_loop qs <+: qs := by
  induction qs with
  | nil => simp [train_worker_loop]
  | cons v rest ih =>
      by_cases hv : isTerminal v
      · exact ⟨rest, by simp [train_worker_loop, hv]⟩
      · obtain ⟨t, ht⟩ := ih
        exact ⟨t, by simpa [train_worker_loop, hv] using ht⟩

/-- When the dequeued sequence contains a terminal update, the loop yields
everything up to and including the first terminal update. -/
lemma train_worker_loop_eq_of_find {γ : Type} [DecidableEq γ]
    (qs : List (TrainUpdate γ)) (u : TrainUpdate γ)
    (h : qs.find? isTerminal = some u) :
    train_worker_loop qs =
      qs.takeWhile (fun x => !isTerminal x) ++ [u] := by
  induction qs with
  | nil => simp [List.find?] at h
  | cons v rest ih =>
      by_cases hv : isTerminal v
      · rw [List.find?_cons_of_pos _ hv] at h
        obtain rfl : v = u := Option.some.inj h
        simp [train_worker_loop, hv, List.takeWhile_cons]
      · rw [List.find?_cons_of_neg _ hv] at h
        simp [train_worker_loop, hv, List.takeWhile_cons, ih h]

/-- C1: for every sequence of updates placed on the queue that contains a
terminal update (type `EXCEPTION`, or type `STATE` with value `DONE`), the
`train_worker` generator yields, in FIFO order, exactly the updates up to
and including the first terminal one — a prefix of the queued sequence — and
stops right after yielding it. -/
theorem claim_C1_train_worker_fifo {γ : Type} [DecidableEq γ]
    (qs : List (TrainUpdate γ)) (u : TrainUpdate γ)
    (h : qs.find? isTerminal = some u) :
    train_worker_loop qs =
      qs.takeWhile (fun x => !isTerminal x) ++ [u] ∧
    train_worker_loop qs <+: qs :=
  ⟨train_worker_loop_eq_of_find qs u h, train_worker_loop_fifo_order qs⟩

/-- Witness for C1 on the queue sequence
`[STATE RUNNING-like, EXCEPTION, STATE DONE]`: the loop stops at the
exception and never dequeues the final update. -/
theorem claim_C1_witness :
    ([⟨.state, .ofState (.otherS 0)⟩, ⟨.exception, .ofExc (.otherE 0)⟩,
        ⟨.state, .ofState .done⟩] : List (TrainUpdate Unit)).find? isTerminal
      = some ⟨.exception, .ofExc (.otherE 0)⟩ ∧
    (train_worker_loop
        [⟨.state, .ofState (.otherS 0)⟩, ⟨.exception, .ofExc (.otherE 0)⟩,
          ⟨.state, .ofState .done⟩] =
      ([⟨.state, .ofState (.otherS 0)⟩, ⟨.exception, .ofExc (.otherE 0)⟩,
          ⟨.state, .ofState .done⟩] : List (TrainUpdate Unit)).takeWhile
          (fun x => !isTerminal x) ++ [⟨.exception, .ofExc (.otherE 0)⟩] ∧
      train_worker_loop
        [⟨.state, .ofState (.otherS 0)⟩, ⟨.exception, .ofExc (.otherE 0)⟩,
          ⟨.state, .ofState .done⟩] <+:
        ([⟨.state, .ofState (.otherS 0)⟩, ⟨.exception, .ofExc (.otherE 0)⟩,
          ⟨.state, .ofState .done⟩] : List (TrainUpdate Unit))) :=
  ⟨by decide, claim_C1_train_worker_fifo _ _ (by decide)⟩

/-- C4: the update queue is created with fixed capacity 10, and every queue
content reachable from the initially empty queue by producer puts (enabled
only below capacity, otherwise the producer blocks) and consumer gets holds
at most 10 pending updates. -/
theorem claim_C4_queue_bounded {γ : Type} (q : List (TrainUpdate γ))
    (h : QueueReachable q) :
    update_queue_capacity = 10 ∧ q.length ≤ update_queue_capacity := by
  refine ⟨rfl, ?_⟩
  induction h with
  | init => simp
  | step _ hs ih =>
      cases hs with
      | put u q hlt =>
          simp only [List.length_append, List.length_cons, List.length_nil]
          omega
      | get u q =>
          simp only [List.length_cons] at ih
          omega

/-- Witness for C4: the queue content holding one `STATE DONE` update is
reachable and within capacity. -/
theorem claim_C4_witness :
    QueueReachable [(⟨.state, .ofState .done⟩ : TrainUpdate Unit)] ∧
    (update_queue_capacity = 10 ∧
      [(⟨.state, .ofState .done⟩ : TrainUpdate Unit)].length ≤
        update_queue_capacity) :=
  ⟨QueueReachable.step QueueReachable.init
      (QueueStep.put ⟨.state, .ofState .done⟩ [] (by decide)),
    claim_C4_queue_bounded _
      (QueueReachable.step QueueReachable.init
        (QueueStep.put ⟨.state, .ofState .done⟩ [] (by decide)))⟩

/-- An early exit of the formatting phase pushes the exception after the
registration update, never calls `careamist.train`, and ends as recorded. -/
lemma assemble_error {γ α : Type} (head : List (TrainUpdate γ)) (e : PyExc)
    (r : PyResult) (outcome : Except PyExc Unit)
    (during : List (TrainUpdate γ)) :
    _train_assemble (α := α) head (.error (e, r)) outcome during =
      ⟨head ++ [⟨.exception, .ofExc e⟩], none, r⟩ := rfl

/-- A normal `careamist.train` return ends the run with the `DONE` update. -/
lemma assemble_ok_ok {γ α : Type} (head : List (TrainUpdate γ))
    (args : TrainArgs α) (u : Unit) (during : List (TrainUpdate γ)) :
    _train_assemble head (.ok args) (.ok u) during =
      ⟨head ++ during ++ [⟨.state, .ofState .done⟩], some args,
        .returned⟩ := rfl

/-- A raised `careamist.train` exception is caught, forwarded, and followed
by the `DONE` update. -/
lemma assemble_ok_error {γ α : Type} (head : List (TrainUpdate γ))
    (args : TrainArgs α) (e : PyExc) (during : List (TrainUpdate γ)) :
    _train_assemble head (.ok args) (.error e) during =
      ⟨head ++ during ++
          [⟨.exception, .ofExc e⟩, ⟨.state, .ofState .done⟩],
        some args, .returned⟩ := rfl

/-- `_train` reaches the `careamist.train` call with arguments `args`
exactly when the formatting phase succeeds with `args`. -/
lemma _train_trainCall_eq {γ α : Type} [DecidableEq α]
    (cs : TrainConfigurationSignal α) (outcome : Except PyExc Unit)
    (during : List (TrainUpdate γ)) (car : γ) (args : TrainArgs α)
    (h : (_train cs outcome during car).trainCall = some args) :
    _train_format cs = .ok args := by
  cases hf : _train_format (α := α) cs with
  | error pr =>
      obtain ⟨e, r⟩ := pr
      rw [_train, hf, assemble_error] at h
      simp at h
  | ok a =>
      cases outcome with
      | ok u =>
          rw [_train, hf, assemble_ok_ok] at h
          simp at h
          rw [h]
      | error e =>
          rw [_train, hf, assemble_ok_error] at h
          simp at h
          rw [h]

/-- Facts about a successful `load_from_disk` formatting: the training
source is the user path, the validation source never coincides with it, and
it is `None` whenever no validation path was given or it equals the training
path. -/
lemma format_disk_ok {α : Type} [DecidableEq α]
    (cs : TrainConfigurationSignal α) (args : TrainArgs α)
    (h : format_disk cs = .ok args) :
    args.train_source = DataSource.path cs.path_train ∧
    args.val_source ≠ some args.train_source ∧
    ((cs.path_val = "" ∨ cs.path_val = cs.path_train) →
      args.val_source = none) := by
  unfold format_disk at h
  by_cases h1 : cs.path_train = ""
  · simp [h1] at h
  · by_cases h3 : cs.path_val = ""
    · by_cases h2 : cs.algorithm = SupportedAlgorithm.n2v
      · simp [h1, h3, h2] at h
        subst h
        simp
      · by_cases h4 : cs.path_train_target = ""
        · simp [h1, h3, h2, h4] at h
        · simp [h1, h3, h2, h4] at h
          subst h
          simp
    · by_cases h5 : cs.path_val = cs.path_train
      · by_cases h2 : cs.algorithm = SupportedAlgorithm.n2v
        · simp [h1, h3, h2, h5] at h
          subst h
          simp
        · by_cases h4 : cs.path_train_target = ""
          · simp [h1, h3, h2, h5, h4] at h
          · simp [h1, h3, h2, h5, h4] at h
            subst h
            simp
      · by_cases h2 : cs.algorithm = SupportedAlgorithm.n2v
        · simp [h1, h3, h2, h5] at h
          subst h
          refine ⟨rfl, by simp [h5], ?_⟩
          rintro (hc | hc)
          · exact absurd hc h3
          · exact absurd hc h5
        · by_cases h4 : cs.path_train_target = ""
          · simp [h1, h3, h2, h5, h4] at h
          · simp [h1, h3, h2, h5, h4] at h
            subst h
            refine ⟨rfl, by simp [h5], ?_⟩
            rintro (hc | hc)
            · exact absurd hc h3
            · exact absurd hc h5

/-- Facts about a successful in-memory-layer formatting: the training source
is the training layer's data, the validation source never coincides with it,
and it is `None` whenever no validation layer was chosen or its data equals
the training layer's data. -/
lemma format_layers_ok {α : Type} [DecidableEq α]
    (cs : TrainConfigurationSignal α) (args : TrainArgs α)
    (h : format_layers cs = .ok args) :
    (∃ l, cs.layer_train = some l ∧
      args.train_source = DataSource.arr l.data) ∧
    args.val_source ≠ some args.train_source ∧
    ((cs.layer_val = none ∨
        ∃ l lv, cs.layer_train = some l ∧ cs.layer_val = some lv ∧
          lv.data = l.data) →
      args.val_source = none) := by
  unfold format_layers at h
  cases hlt : cs.layer_train with
  | none => rw [hlt] at h; simp at h
  | some lt =>
      rw [hlt] at h
      cases hlv : cs.layer_val with
      | none =>
          rw [hlv] at h
          by_cases h2 : cs.algorithm = SupportedAlgorithm.n2v
          · simp [h2] at h
            subst h
            exact ⟨⟨lt, rfl, rfl⟩, by simp, fun _ => rfl⟩
          · cases hltt : cs.layer_train_target with
            | none => rw [hltt] at h; simp [h2] at h
            | some ltt =>
                rw [hltt] at h
                simp [h2] at h
                subst h
                exact ⟨⟨lt, rfl, rfl⟩, by simp, fun _ => rfl⟩
      | some lv =>
          rw [hlv] at h
          by_cases h5 : lv.data = lt.data
          · by_cases h2 : cs.algorithm = SupportedAlgorithm.n2v
            · simp [h2, h5] at h
              subst h
              exact ⟨⟨lt, rfl, rfl⟩, by simp, fun _ => rfl⟩
            · cases hltt : cs.layer_train_target with
              | none => rw [hltt] at h; simp [h2] at h
              | some ltt =>
                  rw [hltt] at h
                  simp [h2, h5] at h
                  subst h
                  exact ⟨⟨lt, rfl, rfl⟩, by simp, fun _ => rfl⟩
          · by_cases h2 : cs.algorithm = SupportedAlgorithm.n2v
            · simp [h2, h5] at h
              subst h
              refine ⟨⟨lt, rfl, rfl⟩, by simp [h5], ?_⟩
              rintro (hc | ⟨l, lv', hl, hlv', hd⟩)
              · exact absurd hc (by simp)
              · obtain rfl : lt = l := Option.some.inj hl
                obtain rfl : lv = lv' := Option.some.inj hlv'
                exact absurd hd h5
            · cases hltt : cs.layer_train_target with
              | none => rw [hltt] at h; simp [h2] at h
              | some ltt =>
                  rw [hltt] at h
                  simp [h2, h5] at h
                  subst h
                  refine ⟨⟨lt, rfl, rfl⟩, by simp [h5], ?_⟩
                  rintro (hc | ⟨l, lv', hl, hlv', hd⟩)
                  · exact absurd hc (by simp)
                  · obtain rfl : lt = l := Option.some.inj hl
                    obtain rfl : lv = lv' := Option.some.inj hlv'
                    exact absurd hd h5

/-- C2: in every run of `_train` that reaches the `careamist.train` call,
`_train` returns normally (a raised training exception never propagates out
of it); the final queued message is `TrainUpdate(STATE, DONE)`; and when
`careamist.train` raised `e`, the queue received
`TrainUpdate(EXCEPTION, e)` immediately before that final message. -/
theorem claim_C2_train_exception_handling {γ α : Type} [DecidableEq α]
    (cs : TrainConfigurationSignal α) (outcome : Except PyExc Unit)
    (during : List (TrainUpdate γ)) (car : γ)
    (h : (_train cs outcome during car).trainCall.isSome = true) :
    (_train cs outcome during car).result = PyResult.returned ∧
    (∃ pre, (_train cs outcome during car).puts =
      pre ++ [⟨.state, .ofState .done⟩]) ∧
    (∀ e, outcome = .error e →
      ∃ pre, (_train cs outcome during car).puts =
        pre ++ [⟨.exception, .ofExc e⟩, ⟨.state, .ofState .done⟩]) := by
  cases hf : _train_format (α := α) cs with
  | error pr =>
      obtain ⟨e, r⟩ := pr
      rw [_train, hf, assemble_error] at h
      simp at h
  | ok args =>
      cases outcome with
      | ok u =>
          rw [_train, hf, assemble_ok_ok]
          refine ⟨rfl,
            ⟨⟨.careamist, .ofCareamist car⟩ :: during, by simp⟩, ?_⟩
          intro e he
          exact absurd he (by simp)
      | error e0 =>
          rw [_train, hf, assemble_ok_error]
          refine ⟨rfl,
            ⟨⟨.careamist, .ofCareamist car⟩ ::
              (during ++ [⟨.exception, .ofExc e0⟩]), by simp⟩, ?_⟩
          intro e he
          obtain rfl : e0 = e := by injection he
          exact ⟨⟨.careamist, .ofCareamist car⟩ :: during, by simp⟩

/-- Witness for C2: with the disk-based example signal and a failing
`careamist.train`, the call is reached, `_train` returns, and the queue ends
with the exception followed by `DONE`. -/
theorem claim_C2_witness :
    (_train (γ := Unit) exampleSignal (.error (.otherE 7)) []
        ()).trainCall.isSome = true ∧
    ((_train (γ := Unit) exampleSignal (.error (.otherE 7)) []
        ()).result = PyResult.returned ∧
    (∃ pre, (_train (γ := Unit) exampleSignal (.error (.otherE 7)) []
        ()).puts = pre ++ [⟨.state, .ofState .done⟩]) ∧
    (∀ e, (Except.error (ε := PyExc) (α := Unit) (.otherE 7)) = .error e →
      ∃ pre, (_train (γ := Unit) exampleSignal (.error (.otherE 7)) []
          ()).puts =
        pre ++ [⟨.exception, .ofExc e⟩, ⟨.state, .ofState .done⟩])) :=
  ⟨by decide, claim_C2_train_exception_handling exampleSignal
    (.error (.otherE 7)) [] () (by decide)⟩

/-- C5: whenever `_train` reaches `careamist.train`, the `train_source`
argument is exactly the user path `path_train` in the `load_from_disk`
branch, and exactly the selected training layer's `.data` otherwise. -/
theorem claim_C5_train_source {γ α : Type} [DecidableEq α]
    (cs : TrainConfigurationSignal α) (outcome : Except PyExc Unit)
    (during : List (TrainUpdate γ)) (car : γ) (args : TrainArgs α)
    (h : (_train cs outcome during car).trainCall = some args) :
    (cs.load_from_disk = true →
      args.train_source = DataSource.path cs.path_train) ∧
    (cs.load_from_disk = false →
      ∃ l, cs.layer_train = some l ∧
        args.train_source = DataSource.arr l.data) := by
  have hf := _train_trainCall_eq cs outcome during car args h
  constructor
  · intro hd
    have hdisk : format_disk cs = .ok args := by
      rw [_train_format, hd] at hf
      simpa using hf
    exact (format_disk_ok cs args hdisk).1
  · intro hd
    have hlay : format_layers cs = .ok args := by
      rw [_train_format, hd] at hf
      simpa using hf
    exact (format_layers_ok cs args hlay).1

/-- Witness for C5 on the disk-based example signal: the training source is
the path `"train"`. -/
theorem claim_C5_witness :
    (_train (γ := Unit) exampleSignal (.ok ()) [] ()).trainCall =
      some ⟨DataSource.path "train", none, none, none⟩ ∧
    ((exampleSignal.load_from_disk = true →
      (⟨DataSource.path "train", none, none, none⟩ :
        TrainArgs Unit).train_source =
          DataSource.path exampleSignal.path_train) ∧
    (exampleSignal.load_from_disk = false →
      ∃ l, exampleSignal.layer_train = some l ∧
        (⟨DataSource.path "train", none, none, none⟩ :
          TrainArgs Unit).train_source = DataSource.arr l.data)) :=
  ⟨by decide, claim_C5_train_source exampleSignal (.ok ()) [] ()
    ⟨DataSource.path "train", none, none, none⟩ (by decide)⟩

/-- C6: `careamist.train` is never invoked with `val_source` equal to
`train_source`; in the disk branch `val_source` is `None` whenever no
validation path was given or it equals the training path, and in the layer
branch whenever no validation layer was chosen or its data equals the
training layer's data. -/
theorem claim_C6_val_source_distinct {γ α : Type} [DecidableEq α]
    (cs : TrainConfigurationSignal α) (outcome : Except PyExc Unit)
    (during : List (TrainUpdate γ)) (car : γ) (args : TrainArgs α)
    (h : (_train cs outcome during car).trainCall = some args) :
    args.val_source ≠ some args.train_source ∧
    (cs.load_from_disk = true →
      (cs.path_val = "" ∨ cs.path_val = cs.path_train) →
        args.val_source = none) ∧
    (cs.load_from_disk = false →
      (cs.layer_val = none ∨
        ∃ l lv, cs.layer_train = some l ∧ cs.layer_val = some lv ∧
          lv.data = l.data) →
        args.val_source = none) := by
  have hf := _train_trainCall_eq cs outcome during car args h
  cases hd : cs.load_from_disk with
  | true =>
      have hdisk : format_disk cs = .ok args := by
        rw [_train_format, hd] at hf
        simpa using hf
      obtain ⟨-, h2, h3⟩ := format_disk_ok cs args hdisk
      exact ⟨h2, fun _ => h3, fun hc => absurd hc (by decide)⟩
  | false =>
      have hlay : format_layers cs = .ok args := by
        rw [_train_format, hd] at hf
        simpa using hf
      obtain ⟨-, h2, h3⟩ := format_layers_ok cs args hlay
      exact ⟨h2, fun hc => absurd hc (by decide), fun _ => h3⟩

/-- Witness for C6 on the disk-based example signal (no validation path
selected): the validation source is `None`. -/
theorem claim_C6_witness :
    (_train (γ := Unit) exampleSignal (.ok ()) [] ()).trainCall =
      some ⟨DataSource.path "train", none, none, none⟩ ∧
    ((⟨DataSource.path "train", none, none, none⟩ :
        TrainArgs Unit).val_source ≠
      some (⟨DataSource.path "train", none, none, none⟩ :
        TrainArgs Unit).train_source ∧
    (exampleSignal.load_from_disk = true →
      (exampleSignal.path_val = "" ∨
        exampleSignal.path_val = exampleSignal.path_train) →
        (⟨DataSource.path "train", none, none, none⟩ :
          TrainArgs Unit).val_source = none) ∧
    (exampleSignal.load_from_disk = false →
      (exampleSignal.layer_val = none ∨
        ∃ l lv, exampleSignal.layer_train = some l ∧
          exampleSignal.layer_val = some lv ∧ lv.data = l.data) →
        (⟨DataSource.path "train", none, none, none⟩ :
          TrainArgs Unit).val_source = none)) :=
  ⟨by decide, claim_C6_val_source_distinct exampleSignal (.ok ()) [] ()
    ⟨DataSource.path "train", none, none, none⟩ (by decide)⟩

/-- C3 (code bug): when `load_from_disk` is false and no training layer is
selected, `_train` does push the `ValueError` `EXCEPTION` update and never
calls `careamist.train`, but — missing the `return` present in the parallel
branches — it then reads `.data` of `None` and dies on an uncaught
`AttributeError` instead of returning; in particular no final `STATE DONE`
update is queued. -/
theorem claim_C3_missing_return_bug :
    (_train (γ := Unit) noLayerSignal (.ok ()) [] ()).result =
      PyResult.raised
        (.attributeError "NoneType object has no attribute data") ∧
    (_train (γ := Unit) noLayerSignal (.ok ()) [] ()).trainCall = none ∧
    (⟨.exception, .ofExc (.valueError "Training data path is empty.")⟩ :
        TrainUpdate Unit) ∈
      (_train (γ := Unit) noLayerSignal (.ok ()) [] ()).puts ∧
    (_train (γ := Unit) noLayerSignal (.ok ()) [] ()).puts.getLast? ≠
      some ⟨.state, .ofState .done⟩ := by
  decide

end CareamicsNapari
